import Mathlib

/-!
Shallow embedding of the movie database data layer in src/django/core/models.py.
Entities are records over Nat identifiers, the persisted state is a record of
row lists, and each manager method is a pure function on that state.  Relational
behaviour that the schema declares but the ORM delegates to the database engine
(UNIQUE constraints from unique_together, foreign key enforcement for
on_delete=DO_NOTHING, SET_NULL for the director reference, CASCADE for votes)
is embedded as explicit checks in the insert and delete operations.
Auto-managed timestamp columns (voted_on, uploaded) carry no claim and are not
modelled; the MovieImage row table is likewise not needed by any claim, only
the pure upload path function is.
-/

namespace MoviesDb

/-- Row of the Movie model: title, plot, year, rating, runtime, website and a
nullable reference to the directing person (ForeignKey with SET_NULL).  The
Option type makes the director reference at most one and nullable. -/
structure Movie where
  id : Nat
  title : String
  plot : String
  year : Nat
  rating : Int
  runtime : Nat
  website : String
  director : Option Nat
deriving DecidableEq, Repr

/-- Rating constant NOT_RATED = 0. -/
def Movie.NOT_RATED : Int := 0

/-- Rating constant RATED_G = 1. -/
def Movie.RATED_G : Int := 1

/-- Rating constant RATED_PG = 2. -/
def Movie.RATED_PG : Int := 2

/-- Rating constant RATED_R = 3. -/
def Movie.RATED_R : Int := 3

/-- Row of the Person model; dates are modelled as ordinals. -/
structure Person where
  id : Nat
  first_name : String
  last_name : String
  born : Nat
  died : Option Nat
deriving DecidableEq, Repr

/-- Row of the Role model: the intermediary table between Movie and Person,
with foreign keys declared on_delete=DO_NOTHING. -/
structure Role where
  id : Nat
  movie : Nat
  person : Nat
  name : String
deriving DecidableEq, Repr

/-- Persisted row of the Vote model: a stored vote always has a value. -/
structure VoteRow where
  id : Nat
  value : Int
  user : Nat
  movie : Nat
deriving DecidableEq, Repr

/-- Vote value constant UP = 1. -/
def VoteRow.UP : Int := 1

/-- Vote value constant DOWN = -1. -/
def VoteRow.DOWN : Int := -1

/-- In-memory Vote object as handed to callers by the vote manager: pk is the
primary key (none while the object is transient, not yet persisted) and value
is none while unset, as in a freshly constructed Vote(movie=..., user=...). -/
structure VoteObj where
  pk : Option Nat
  value : Option Int
  user : Nat
  movie : Nat
deriving DecidableEq, Repr

/-- The persisted relational state: one list of rows per modelled table. -/
structure DB where
  movies : List Movie
  persons : List Person
  roles : List Role
  votes : List VoteRow
deriving DecidableEq, Repr

/-- Default ordering of Movie, from Meta.ordering = (-year, title): year
descending first, then title ascending. -/
def movieLe (a b : Movie) : Prop :=
  b.year < a.year ∨ (a.year = b.year ∧ a.title ≤ b.title)

instance movieLe.instDecidableRel : DecidableRel movieLe := fun a b => by
  unfold movieLe; infer_instance

instance movieLe.instIsTotal : IsTotal Movie movieLe where
  total a b := by
    rcases Nat.lt_trichotomy a.year b.year with h | h | h
    · exact Or.inr (Or.inl h)
    · rcases le_total a.title b.title with ht | ht
      · exact Or.inl (Or.inr ⟨h, ht⟩)
      · exact Or.inr (Or.inr ⟨h.symm, ht⟩)
    · exact Or.inl (Or.inl h)

instance movieLe.instIsTrans : IsTrans Movie movieLe where
  trans a b c hab hbc := by
    rcases hab with hab | ⟨hab, hab'⟩ <;> rcases hbc with hbc | ⟨hbc, hbc'⟩
    · exact Or.inl (lt_trans hbc hab)
    · exact Or.inl (hbc ▸ hab)
    · exact Or.inl (hab ▸ hbc)
    · exact Or.inr ⟨hab.trans hbc, le_trans hab' hbc'⟩

/-- Objects.get_queryset() for Movie: all movie rows in the default Meta
ordering (-year, title).  The SQL ORDER BY is modelled by insertion sort. -/
def get_queryset (db : DB) : List Movie :=
  List.insertionSort movieLe db.movies

/-- Filter of the vote rows joined to a given movie (the vote__value join). -/
def votesFor (db : DB) (mid : Nat) : List VoteRow :=
  db.votes.filter (fun v => v.movie == mid)

/-- SQL aggregate Sum(vote__value) for one movie: NULL (none) when the movie
has no vote rows, otherwise the sum of the joined values. -/
def vote_sum (db : DB) (mid : Nat) : Option Int :=
  if (votesFor db mid).isEmpty then none
  else some (((votesFor db mid).map VoteRow.value).sum)

/-- MovieManager.all_with_related_persons: select_related and prefetch_related
only eager-load the person relations and do not change which movie rows the
queryset yields, so the row content is that of get_queryset. -/
def all_with_related_persons (db : DB) : List Movie :=
  get_queryset db

/-- MovieManager.all_with_related_persons_and_score: annotates every movie of
all_with_related_persons with score = Sum(vote__value). -/
def all_with_related_persons_and_score (db : DB) : List (Movie × Option Int) :=
  (all_with_related_persons db).map (fun m => (m, vote_sum db m.id))

/-- Descending order on the vote_sum annotation used by order_by(-vote_sum);
the rows reaching the sort all carry a some value, where getD is the value. -/
def voteSumGe (a b : Movie × Option Int) : Prop :=
  b.2.getD 0 ≤ a.2.getD 0

instance voteSumGe.instDecidableRel : DecidableRel voteSumGe := fun a b => by
  unfold voteSumGe; infer_instance

instance voteSumGe.instIsTotal : IsTotal (Movie × Option Int) voteSumGe where
  total a b := le_total (b.2.getD 0) (a.2.getD 0)

instance voteSumGe.instIsTrans : IsTrans (Movie × Option Int) voteSumGe where
  trans _ _ _ hab hbc := le_trans hbc hab

/-- MovieManager.top_movies(limit): annotate vote_sum = Sum(vote__value),
exclude rows whose annotation is NULL, order by the annotation descending,
then keep at most limit rows. -/
def top_movies (db : DB) (limit : Nat) : List (Movie × Option Int) :=
  let qs := get_queryset db
  let qs := qs.map (fun m => (m, vote_sum db m.id))
  let qs := qs.filter (fun p => p.2.isSome)
  let qs := List.insertionSort voteSumGe qs
  qs.take limit

/-- MovieManager.top_movies with its default argument limit=10. -/
def top_movies_default (db : DB) : List (Movie × Option Int) :=
  top_movies db 10

/-- Exceptions that Model.objects.get can raise. -/
inductive GetError where
  | doesNotExist
  | multipleObjectsReturned
deriving DecidableEq, Repr

/-- Vote.objects.get(movie=movie, user=user): the unique matching row, or
DoesNotExist when no row matches, or MultipleObjectsReturned when several do. -/
def votes_get (db : DB) (movie user : Nat) : Except GetError VoteRow :=
  match db.votes.filter (fun v => v.movie == movie && v.user == user) with
  | [] => Except.error GetError.doesNotExist
  | [v] => Except.ok v
  | _ :: _ :: _ => Except.error GetError.multipleObjectsReturned

/-- View of a persisted vote row as the object the ORM hands back: the primary
key and the value are both present. -/
def persistedVoteObj (v : VoteRow) : VoteObj :=
  { pk := some v.id, value := some v.value, user := v.user, movie := v.movie }

/-- VoteManager.get_vote_or_unsaved_blank_vote(movie, user): try
Vote.objects.get and on DoesNotExist fall back to the transient
Vote(movie=movie, user=user) with no primary key and no value.  The function
reads the state and returns an object; it writes no row.  Only
MultipleObjectsReturned escapes the try/except. -/
def get_vote_or_unsaved_blank_vote (db : DB) (movie user : Nat) :
    Except GetError VoteObj :=
  match votes_get db movie user with
  | Except.ok v => Except.ok (persistedVoteObj v)
  | Except.error GetError.doesNotExist =>
      Except.ok { pk := none, value := none, user := user, movie := movie }
  | Except.error e => Except.error e

/-- Invariant enforced by Vote.Meta.unique_together = (user, movie): no two
stored vote rows agree on both the user and the movie. -/
def votesUnique (db : DB) : Prop :=
  db.votes.Pairwise (fun v1 v2 => ¬ (v1.user = v2.user ∧ v1.movie = v2.movie))

instance votesUnique.instDecidable (db : DB) : Decidable (votesUnique db) := by
  unfold votesUnique; infer_instance

/-- Invariant enforced by Role.Meta.unique_together = (movie, person, name):
no two stored role rows agree on the whole triple. -/
def rolesUnique (db : DB) : Prop :=
  db.roles.Pairwise
    (fun r1 r2 => ¬ (r1.movie = r2.movie ∧ r1.person = r2.person ∧ r1.name = r2.name))

instance rolesUnique.instDecidable (db : DB) : Decidable (rolesUnique db) := by
  unfold rolesUnique; infer_instance

/-- Database error message for the Role unique_together constraint. -/
def roleUniqueErr : String :=
  "UNIQUE constraint failed: core_role.movie_id, core_role.person_id, core_role.name"

/-- Database error message for the Vote unique_together constraint. -/
def voteUniqueErr : String :=
  "UNIQUE constraint failed: core_vote.user_id, core_vote.movie_id"

/-- Database error message for foreign key enforcement. -/
def fkErr : String := "FOREIGN KEY constraint failed"

/-- Persisting a Role row: the unique_together = (movie, person, name)
constraint makes the engine reject a row whose triple is already stored,
leaving the state unchanged; otherwise the row is appended. -/
def insertRole (db : DB) (r : Role) : Except String DB :=
  if db.roles.any
      (fun r0 => r0.movie == r.movie && r0.person == r.person && r0.name == r.name)
  then Except.error roleUniqueErr
  else Except.ok { db with roles := db.roles ++ [r] }

/-- Persisting a Vote row: the unique_together = (user, movie) constraint makes
the engine reject a row whose pair is already stored, leaving the state
unchanged; otherwise the row is appended. -/
def insertVote (db : DB) (v : VoteRow) : Except String DB :=
  if db.votes.any (fun v0 => v0.user == v.user && v0.movie == v.movie)
  then Except.error voteUniqueErr
  else Except.ok { db with votes := db.votes ++ [v] }

/-- Deleting a Movie row.  Role.movie is declared on_delete=DO_NOTHING: the ORM
touches no role row and the foreign key constraint in the database rejects the
delete while a role still references the movie.  Vote.movie is
on_delete=CASCADE, so the votes of the movie are removed with it. -/
def deleteMovie (db : DB) (mid : Nat) : Except String DB :=
  if db.roles.any (fun r => r.movie == mid) then Except.error fkErr
  else Except.ok
    { db with
      movies := db.movies.filter (fun m => m.id != mid)
      votes := db.votes.filter (fun v => v.movie != mid) }

/-- Deleting a Person row.  Role.person is declared on_delete=DO_NOTHING: the
ORM touches no role row and the foreign key constraint in the database rejects
the delete while a role still references the person.  Movie.director is
on_delete=SET_NULL, so each movie directed by the person keeps its row with the
director reference cleared and every other field untouched. -/
def deletePerson (db : DB) (pid : Nat) : Except String DB :=
  if db.roles.any (fun r => r.person == pid) then Except.error fkErr
  else Except.ok
    { db with
      persons := db.persons.filter (fun p => p.id != pid)
      movies := db.movies.map
        (fun m => if m.director = some pid then { m with director := none } else m) }

/-- Decimal digit character, as produced by formatting a number. -/
def digitChar (d : Nat) : Char := Char.ofNat (48 + d)

/-- Decimal rendering of a natural number, the list of characters that
str(movie_id) produces in the format call. -/
def natChars (n : Nat) : List Char :=
  if h : n < 10 then [digitChar n]
  else natChars (n / 10) ++ [digitChar (n % 10)]
decreasing_by exact Nat.div_lt_self (Nat.lt_of_lt_of_le (by norm_num) (Nat.le_of_not_lt h)) (by norm_num)

/-- The part of a MovieImage instance that the upload path function reads. -/
structure MovieImageInstance where
  movie_id : Nat
deriving DecidableEq, Repr

/-- movie_directory_path_with_uuid(instance, filename): the stored path is
str(instance.movie_id) + / + str(uuid4()).  The fresh random token drawn by
uuid4() inside the function is made an explicit argument; the filename argument
is ignored, exactly as in the source.  The path is modelled as its character
list. -/
def movie_directory_path_with_uuid (inst : MovieImageInstance)
    (filename : List Char) (uuid : List Char) : List Char :=
  natChars inst.movie_id ++ '/' :: uuid

/-! Concrete sample data used to instantiate the theorems below. -/

/-- Sample movie with the given id, title and year and neutral other fields. -/
def mkMovie (i : Nat) (t : String) (y : Nat) : Movie :=
  { id := i, title := t, plot := "", year := y, rating := Movie.NOT_RATED,
    runtime := 100, website := "", director := none }

/-- Sample state from the specification example: one movie with votes
+1, +1, -1 (net 1), one with votes +1, +1, +1 (net 3) and one unvoted. -/
def exDB : DB :=
  { movies := [mkMovie 1 "Inception" 2010, mkMovie 2 "B" 2011, mkMovie 3 "C" 2012]
    persons := []
    roles := []
    votes := [⟨1, 1, 1, 1⟩, ⟨2, 1, 2, 1⟩, ⟨3, -1, 3, 1⟩,
              ⟨4, 1, 1, 2⟩, ⟨5, 1, 2, 2⟩, ⟨6, 1, 3, 2⟩] }

/-- Sample state with a single movie whose two votes cancel to a net of
zero: one vote of +1 and one of -1. -/
def exZeroDB : DB :=
  { movies := [mkMovie 1 "A" 2000]
    persons := []
    roles := []
    votes := [⟨1, 1, 1, 1⟩, ⟨2, -1, 2, 1⟩] }

/-- Sample state holding one role row, for the constraint theorems. -/
def exRoleDB : DB :=
  { movies := [mkMovie 1 "A" 2000]
    persons := [⟨1, "Jane", "Doe", 300, none⟩]
    roles := [⟨1, 1, 1, "Hero"⟩]
    votes := [] }

/-- Sample state where person 5 directs the only movie and no role row
references anybody, for the SET_NULL theorem. -/
def exDirDB : DB :=
  { movies := [{ mkMovie 1 "A" 2000 with director := some 5 }]
    persons := [⟨5, "Jane", "Doe", 300, none⟩]
    roles := []
    votes := [⟨1, 1, 1, 1⟩] }

/-- Expected state after deleting person 5 from exDirDB. -/
def exDirDB' : DB :=
  { movies := [mkMovie 1 "A" 2000]
    persons := []
    roles := []
    votes := [⟨1, 1, 1, 1⟩] }

/-! Helper lemmas shared by the claim theorems. -/

theorem mem_get_queryset {db : DB} {m : Movie} :
    m ∈ get_queryset db ↔ m ∈ db.movies :=
  (List.perm_insertionSort movieLe db.movies).mem_iff

theorem digitChar_ne_slash {d : Nat} (h : d < 10) : digitChar d ≠ '/' := by
  interval_cases d <;> decide

theorem natChars_ne_slash (n : Nat) : '/' ∉ natChars n := by
  induction n using Nat.strong_induction_on with
  | _ n ih =>
    rw [natChars]
    split
    · next h =>
        intro hmem
        exact digitChar_ne_slash h (List.mem_singleton.mp hmem).symm
    · next h =>
        intro hmem
        rcases List.mem_append.mp hmem with hmem | hmem
        · exact ih (n / 10) (Nat.div_lt_self (by omega) (by omega)) hmem
        · exact digitChar_ne_slash (Nat.mod_lt n (by omega))
            (List.mem_singleton.mp hmem).symm

theorem append_slash_inj :
    ∀ {a1 : List Char} {a2 s1 s2 : List Char}, '/' ∉ a1 → '/' ∉ a2 →
      a1 ++ '/' :: s1 = a2 ++ '/' :: s2 → a1 = a2 ∧ s1 = s2 := by
  intro a1
  induction a1 with
  | nil =>
    intro a2 s1 s2 h1 h2 h
    cases a2 with
    | nil =>
      simp only [List.nil_append, List.cons.injEq] at h
      exact ⟨rfl, h.2⟩
    | cons c a2' =>
      simp only [List.nil_append, List.cons_append, List.cons.injEq] at h
      exact absurd (h.1 ▸ List.mem_cons_self c a2') h2
  | cons c a1' ih =>
    intro a2 s1 s2 h1 h2 h
    cases a2 with
    | nil =>
      simp only [List.cons_append, List.nil_append, List.cons.injEq] at h
      exact absurd (h.1.symm ▸ List.mem_cons_self c a1') h1
    | cons d a2' =>
      simp only [List.cons_append, List.cons.injEq] at h
      obtain ⟨rfl, h⟩ := h
      have ht := ih (fun hm => h1 (List.mem_cons_of_mem c hm))
        (fun hm => h2 (List.mem_cons_of_mem c hm)) h
      exact ⟨by rw [ht.1], ht.2⟩

/-! Claim theorems. -/

/-- C7: for every collection of movies, the default queryset ordering lists
the rows by year descending and, among equal years, by title ascending, and
yields exactly the stored movie rows. -/
theorem movie_default_ordering_spec (db : DB) :
    List.Sorted movieLe (get_queryset db)
    ∧ (get_queryset db).Perm db.movies
    ∧ (get_queryset db).Pairwise (fun a b => b.year ≤ a.year)
    ∧ (get_queryset db).Pairwise
        (fun a b => b.year < a.year ∨ (a.year = b.year ∧ a.title ≤ b.title)) := by
  refine ⟨List.sorted_insertionSort movieLe db.movies,
    List.perm_insertionSort movieLe db.movies, ?_, ?_⟩
  · refine (List.sorted_insertionSort movieLe db.movies).imp ?_
    intro a b h
    rcases h with h | ⟨h, _⟩
    · exact le_of_lt h
    · exact le_of_eq h.symm
  · exact List.sorted_insertionSort movieLe db.movies

/-- C9: the upload path is the decimal movie identifier, a slash, then the
fresh random token, and two uploads drawing distinct tokens never receive the
same path, whatever the movies and original filenames involved. -/
theorem upload_path_spec (i1 i2 : MovieImageInstance) (f1 f2 t1 t2 : List Char)
    (hne : t1 ≠ t2) :
    movie_directory_path_with_uuid i1 f1 t1 = natChars i1.movie_id ++ '/' :: t1
    ∧ movie_directory_path_with_uuid i1 f1 t1 ≠
        movie_directory_path_with_uuid i2 f2 t2 := by
  refine ⟨rfl, fun h => hne ?_⟩
  exact (append_slash_inj (natChars_ne_slash i1.movie_id)
    (natChars_ne_slash i2.movie_id) h).2

/-- Witness for C9 at concrete tokens aaaa and bbbb. -/
theorem upload_path_spec_witness :
    movie_directory_path_with_uuid ⟨1⟩ "a.png".data "aaaa".data ≠
      movie_directory_path_with_uuid ⟨2⟩ "b.png".data "bbbb".data :=
  (upload_path_spec ⟨1⟩ ⟨2⟩ "a.png".data "b.png".data "aaaa".data "bbbb".data
    (by decide)).2

/-- Every row of a top_movies result is a stored movie annotated with its own
vote sum, and that sum is not null. -/
theorem mem_top_movies {db : DB} {limit : Nat} {p : Movie × Option Int}
    (hp : p ∈ top_movies db limit) :
    p.1 ∈ db.movies ∧ p.2 = vote_sum db p.1.id ∧ p.2 ≠ none := by
  have hp' : p ∈ (List.insertionSort voteSumGe
      (((get_queryset db).map (fun m => (m, vote_sum db m.id))).filter
        (fun q => q.2.isSome))).take limit := hp
  have h1 := List.take_subset limit _ hp'
  have h2 := (List.perm_insertionSort voteSumGe _).mem_iff.mp h1
  have h3 := List.mem_filter.mp h2
  obtain ⟨m, hm, rfl⟩ := List.mem_map.mp h3.1
  exact ⟨mem_get_queryset.mp hm, rfl, Option.isSome_iff_ne_none.mp h3.2⟩

/-- C1: top_movies annotates each returned movie with the sum of the values of
its votes, keeps only movies whose sum is not null, is sorted by that sum
descending, returns at most limit rows, the default limit is 10, and every
stored movie with a non-null sum is returned once the limit is large enough. -/
theorem top_movies_spec (db : DB) (limit : Nat) :
    (∀ p ∈ top_movies db limit,
        p.1 ∈ db.movies ∧ p.2 = vote_sum db p.1.id ∧ p.2 ≠ none)
    ∧ List.Sorted voteSumGe (top_movies db limit)
    ∧ (top_movies db limit).length ≤ limit
    ∧ top_movies_default db = top_movies db 10
    ∧ (∀ m ∈ db.movies, vote_sum db m.id ≠ none →
        (m, vote_sum db m.id) ∈ top_movies db db.movies.length) := by
  refine ⟨fun p hp => mem_top_movies hp, ?_, ?_, rfl, ?_⟩
  · show List.Sorted voteSumGe ((List.insertionSort voteSumGe
      (((get_queryset db).map (fun m => (m, vote_sum db m.id))).filter
        (fun q => q.2.isSome))).take limit)
    exact List.Pairwise.sublist (List.take_sublist limit _)
      (List.sorted_insertionSort voteSumGe _)
  · show ((List.insertionSort voteSumGe
      (((get_queryset db).map (fun m => (m, vote_sum db m.id))).filter
        (fun q => q.2.isSome))).take limit).length ≤ limit
    exact List.length_take_le limit _
  · intro m hm hsum
    have h0 : m ∈ get_queryset db := mem_get_queryset.mpr hm
    have h1 : (m, vote_sum db m.id) ∈
        (get_queryset db).map (fun m => (m, vote_sum db m.id)) :=
      List.mem_map_of_mem _ h0
    have h2 : (m, vote_sum db m.id) ∈
        ((get_queryset db).map (fun m => (m, vote_sum db m.id))).filter
          (fun q => q.2.isSome) :=
      List.mem_filter.mpr ⟨h1, Option.isSome_iff_ne_none.mpr hsum⟩
    have h3 := (List.perm_insertionSort voteSumGe _).mem_iff.mpr h2
    have hlen : (List.insertionSort voteSumGe
        (((get_queryset db).map (fun m => (m, vote_sum db m.id))).filter
          (fun q => q.2.isSome))).length ≤ db.movies.length := by
      rw [(List.perm_insertionSort voteSumGe _).length_eq]
      calc (((get_queryset db).map (fun m => (m, vote_sum db m.id))).filter
              (fun q => q.2.isSome)).length
          ≤ ((get_queryset db).map (fun m => (m, vote_sum db m.id))).length :=
            List.length_filter_le _ _
        _ = (get_queryset db).length := List.length_map _ _
        _ = db.movies.length := (List.perm_insertionSort movieLe db.movies).length_eq
    show (m, vote_sum db m.id) ∈ (List.insertionSort voteSumGe
      (((get_queryset db).map (fun m => (m, vote_sum db m.id))).filter
        (fun q => q.2.isSome))).take db.movies.length
    rw [List.take_of_length_le hlen]
    exact h3

/-- Witness for C1 on the specification example state: at most two rows come
back and the returned movie B carries the sum of its three +1 votes. -/
theorem top_movies_spec_witness :
    (top_movies exDB 2).length ≤ 2
    ∧ (mkMovie 2 "B" 2011, (some 3 : Option Int)).2 =
        vote_sum exDB (mkMovie 2 "B" 2011).id :=
  ⟨(top_movies_spec exDB 2).2.2.1,
   ((top_movies_spec exDB 2).1 (mkMovie 2 "B" 2011, (some 3 : Option Int))
     (by decide)).2.1⟩

/-- C2 counterexample: in exZeroDB the only movie has one +1 vote and one -1
vote, so its net sum is zero, yet top_movies returns it: a movie with a zero
net sum does appear, because exclude only drops the null sums. -/
theorem zero_net_movie_appears :
    (exZeroDB.votes.map VoteRow.value = [1, -1])
    ∧ vote_sum exZeroDB 1 = some 0
    ∧ (top_movies exZeroDB 10).map (fun p => p.1.id) = [1] := by
  refine ⟨rfl, rfl, ?_⟩
  decide

/-- C2 amended: only movies with a null vote sum, that is movies with no votes
at all, never appear in top_movies; a movie whose votes cancel to a net of
zero carries the non-null sum zero and may appear. -/
theorem top_movies_excludes_only_null (db : DB) (limit mid : Nat)
    (h : vote_sum db mid = none) :
    ∀ p ∈ top_movies db limit, p.1.id ≠ mid := by
  intro p hp heq
  have hm := mem_top_movies hp
  have h1 : p.2 = vote_sum db p.1.id := hm.2.1
  rw [heq, h] at h1
  exact hm.2.2 h1

/-- Witness for the amended C2: no row of top_movies on exZeroDB belongs to
the voteless movie identifier 2. -/
theorem top_movies_excludes_only_null_witness :
    (mkMovie 1 "A" 2000, (some 0 : Option Int)).1.id ≠ 2 :=
  top_movies_excludes_only_null exZeroDB 10 2 (by decide)
    (mkMovie 1 "A" 2000, (some 0 : Option Int)) (by decide)

/-- C3: every row of all_with_related_persons_and_score carries
score = Sum(vote__value) of its own movie: the null score exactly when the
movie has no votes, the sum of the vote values when it has at least one, and
every stored movie appears with its score. -/
theorem all_with_related_persons_and_score_spec (db : DB) :
    (∀ p ∈ all_with_related_persons_and_score db,
        p.2 = vote_sum db p.1.id
        ∧ (votesFor db p.1.id = [] → p.2 = none)
        ∧ (votesFor db p.1.id ≠ [] →
            p.2 = some (((votesFor db p.1.id).map VoteRow.value).sum)))
    ∧ (∀ m ∈ db.movies,
        (m, vote_sum db m.id) ∈ all_with_related_persons_and_score db) := by
  constructor
  · intro p hp
    obtain ⟨m, hm, rfl⟩ := List.mem_map.mp hp
    refine ⟨rfl, ?_, ?_⟩
    · intro he
      simp [vote_sum, he]
    · intro hne
      simp only [vote_sum, List.isEmpty_iff]
      rw [if_neg hne]
  · intro m hm
    exact List.mem_map_of_mem _ (mem_get_queryset.mpr hm)

/-- Witness for C3 on the specification example: Inception with votes
+1, +1, -1 appears with score some 1. -/
theorem all_with_related_persons_and_score_spec_witness :
    (mkMovie 1 "Inception" 2010, vote_sum exDB 1) ∈
      all_with_related_persons_and_score exDB
    ∧ vote_sum exDB 1 = some 1 :=
  ⟨(all_with_related_persons_and_score_spec exDB).2 (mkMovie 1 "Inception" 2010)
    (by decide), by decide⟩

/-- Under the vote uniqueness invariant, the rows matching a (movie, user)
key are none at all or exactly one. -/
theorem vote_filter_short (movie user : Nat) :
    ∀ {l : List VoteRow},
      l.Pairwise (fun v1 v2 => ¬ (v1.user = v2.user ∧ v1.movie = v2.movie)) →
      l.filter (fun v => v.movie == movie && v.user == user) = []
      ∨ ∃ v, v ∈ l ∧ v.movie = movie ∧ v.user = user ∧
          l.filter (fun v => v.movie == movie && v.user == user) = [v] := by
  intro l
  induction l with
  | nil => intro _; exact Or.inl rfl
  | cons a l ih =>
    intro hp
    rw [List.pairwise_cons] at hp
    obtain ⟨ha, hl⟩ := hp
    by_cases hq : a.movie = movie ∧ a.user = user
    · refine Or.inr ⟨a, List.mem_cons_self a l, hq.1, hq.2, ?_⟩
      have hqa : (fun v => v.movie == movie && v.user == user) a = true := by
        simp [hq.1, hq.2]
      have hnil : l.filter (fun v => v.movie == movie && v.user == user) = [] := by
        rw [List.filter_eq_nil_iff]
        intro b hb hqb
        simp only [Bool.and_eq_true, beq_iff_eq] at hqb
        exact ha b hb ⟨hq.2.trans hqb.2.symm, hq.1.trans hqb.1.symm⟩
      simp [List.filter_cons, hqa, hnil]
    · have hqa : (fun v => v.movie == movie && v.user == user) a = false := by
        rw [Bool.eq_false_iff]
        intro hc
        simp only [Bool.and_eq_true, beq_iff_eq] at hc
        exact hq hc
      rcases ih hl with h | ⟨v, hv, h1, h2, h3⟩
      · left
        simp [List.filter_cons, hqa, h]
      · refine Or.inr ⟨v, List.mem_cons_of_mem a hv, h1, h2, ?_⟩
        simp [List.filter_cons, hqa, h3]

/-- C4: under the stored uniqueness invariant, the vote manager hands back the
persisted vote of the (movie, user) pair when one is stored, and otherwise a
transient object with no primary key, no value, and the movie and user set;
the not-found case never surfaces as an error.  The function only reads the
state, as its type shows, so it creates no row. -/
theorem get_vote_or_unsaved_blank_vote_spec (db : DB) (movie user : Nat)
    (hu : votesUnique db) :
    (∀ v ∈ db.votes, v.movie = movie → v.user = user →
        get_vote_or_unsaved_blank_vote db movie user =
          Except.ok (persistedVoteObj v))
    ∧ ((∀ v ∈ db.votes, ¬ (v.movie = movie ∧ v.user = user)) →
        get_vote_or_unsaved_blank_vote db movie user =
          Except.ok { pk := none, value := none, user := user, movie := movie })
    ∧ (∀ e, get_vote_or_unsaved_blank_vote db movie user ≠ Except.error e) := by
  rcases vote_filter_short movie user hu with hf | ⟨v, hv, h1, h2, hf⟩
  · have hg : votes_get db movie user = Except.error GetError.doesNotExist := by
      unfold votes_get; rw [hf]
    refine ⟨?_, ?_, ?_⟩
    · intro v' hv' h1' h2'
      exfalso
      have hmem : v' ∈ db.votes.filter
          (fun v => v.movie == movie && v.user == user) :=
        List.mem_filter.mpr ⟨hv', by simp [h1', h2']⟩
      rw [hf] at hmem
      exact absurd hmem (List.not_mem_nil v')
    · intro _
      unfold get_vote_or_unsaved_blank_vote; rw [hg]
    · intro e
      unfold get_vote_or_unsaved_blank_vote; rw [hg]; simp
  · have hg : votes_get db movie user = Except.ok v := by
      unfold votes_get; rw [hf]
    refine ⟨?_, ?_, ?_⟩
    · intro v' hv' h1' h2'
      have hmem : v' ∈ db.votes.filter
          (fun v => v.movie == movie && v.user == user) :=
        List.mem_filter.mpr ⟨hv', by simp [h1', h2']⟩
      rw [hf] at hmem
      obtain rfl := List.mem_singleton.mp hmem
      unfold get_vote_or_unsaved_blank_vote; rw [hg]
    · intro hnone
      exact absurd ⟨h1, h2⟩ (hnone v hv)
    · intro e
      unfold get_vote_or_unsaved_blank_vote; rw [hg]; simp

/-- Witness for C4: on exZeroDB the stored vote of user 2 on movie 1 comes
back persisted with its value, and the pair (movie 1, user 5) without a vote
comes back as the transient blank object. -/
theorem get_vote_or_unsaved_blank_vote_spec_witness :
    get_vote_or_unsaved_blank_vote exZeroDB 1 2 =
      Except.ok (persistedVoteObj ⟨2, -1, 2, 1⟩)
    ∧ get_vote_or_unsaved_blank_vote exZeroDB 1 5 =
        Except.ok { pk := none, value := none, user := 5, movie := 1 } :=
  ⟨(get_vote_or_unsaved_blank_vote_spec exZeroDB 1 2 (by decide)).1
     ⟨2, -1, 2, 1⟩ (by decide) rfl rfl,
   (get_vote_or_unsaved_blank_vote_spec exZeroDB 1 5 (by decide)).2.1
     (by decide)⟩

/-- C5: persisting a role whose (movie, person, name) triple is already stored,
or a vote whose (user, movie) pair is already stored, is rejected with the
constraint error and produces no new state, and a successful insert preserves
the respective uniqueness invariant of the stored state. -/
theorem unique_together_spec (db : DB) (r : Role) (v : VoteRow) :
    ((∃ r0 ∈ db.roles,
        r0.movie = r.movie ∧ r0.person = r.person ∧ r0.name = r.name) →
      insertRole db r = Except.error roleUniqueErr)
    ∧ ((∃ v0 ∈ db.votes, v0.user = v.user ∧ v0.movie = v.movie) →
        insertVote db v = Except.error voteUniqueErr)
    ∧ (∀ db', insertRole db r = Except.ok db' → rolesUnique db → rolesUnique db')
    ∧ (∀ db', insertVote db v = Except.ok db' → votesUnique db → votesUnique db') := by
  refine ⟨?_, ?_, ?_, ?_⟩
  · rintro ⟨r0, hr0, h1, h2, h3⟩
    have hc : db.roles.any
        (fun r0 => r0.movie == r.movie && r0.person == r.person && r0.name == r.name)
          = true :=
      List.any_eq_true.mpr ⟨r0, hr0, by simp [h1, h2, h3]⟩
    unfold insertRole
    rw [if_pos hc]
  · rintro ⟨v0, hv0, h1, h2⟩
    have hc : db.votes.any (fun v0 => v0.user == v.user && v0.movie == v.movie)
        = true :=
      List.any_eq_true.mpr ⟨v0, hv0, by simp [h1, h2]⟩
    unfold insertVote
    rw [if_pos hc]
  · intro db' hok hu
    unfold insertRole at hok
    by_cases hc : db.roles.any
        (fun r0 => r0.movie == r.movie && r0.person == r.person && r0.name == r.name)
          = true
    · rw [if_pos hc] at hok
      exact absurd hok (by simp)
    · rw [if_neg hc] at hok
      have h' := Except.ok.inj hok
      rw [← h']
      unfold rolesUnique at hu ⊢
      rw [List.pairwise_append]
      refine ⟨hu, List.pairwise_singleton _ _, ?_⟩
      intro a ha b hb
      obtain rfl := List.mem_singleton.mp hb
      intro hcontra
      apply hc
      exact List.any_eq_true.mpr
        ⟨a, ha, by simp [hcontra.1, hcontra.2.1, hcontra.2.2]⟩
  · intro db' hok hu
    unfold insertVote at hok
    by_cases hc : db.votes.any (fun v0 => v0.user == v.user && v0.movie == v.movie)
        = true
    · rw [if_pos hc] at hok
      exact absurd hok (by simp)
    · rw [if_neg hc] at hok
      have h' := Except.ok.inj hok
      rw [← h']
      unfold votesUnique at hu ⊢
      rw [List.pairwise_append]
      refine ⟨hu, List.pairwise_singleton _ _, ?_⟩
      intro a ha b hb
      obtain rfl := List.mem_singleton.mp hb
      intro hcontra
      apply hc
      exact List.any_eq_true.mpr ⟨a, ha, by simp [hcontra.1, hcontra.2]⟩

/-- Witness for C5: duplicating the stored role triple (1, 1, Hero) and the
stored vote pair (user 1, movie 1) are both rejected. -/
theorem unique_together_spec_witness :
    insertRole exRoleDB ⟨2, 1, 1, "Hero"⟩ = Except.error roleUniqueErr
    ∧ insertVote exZeroDB ⟨3, 1, 1, 1⟩ = Except.error voteUniqueErr :=
  ⟨(unique_together_spec exRoleDB ⟨2, 1, 1, "Hero"⟩ ⟨3, 1, 1, 1⟩).1
     ⟨⟨1, 1, 1, "Hero"⟩, by decide, rfl, rfl, rfl⟩,
   (unique_together_spec exZeroDB ⟨2, 1, 1, "Hero"⟩ ⟨3, 1, 1, 1⟩).2.1
     ⟨⟨1, 1, 1, 1⟩, by decide, rfl, rfl⟩⟩

/-- C6: while any role row references a movie or a person, deleting that movie
or person is rejected with the foreign key error, and a delete that does go
through never touches the role table: no cascade happens on roles. -/
theorem role_delete_protection (db : DB) (mid pid : Nat) :
    ((∃ r ∈ db.roles, r.movie = mid) → deleteMovie db mid = Except.error fkErr)
    ∧ ((∃ r ∈ db.roles, r.person = pid) →
        deletePerson db pid = Except.error fkErr)
    ∧ (∀ db', deleteMovie db mid = Except.ok db' → db'.roles = db.roles)
    ∧ (∀ db', deletePerson db pid = Except.ok db' → db'.roles = db.roles) := by
  refine ⟨?_, ?_, ?_, ?_⟩
  · rintro ⟨r, hr, h1⟩
    have hc : db.roles.any (fun r => r.movie == mid) = true :=
      List.any_eq_true.mpr ⟨r, hr, by simp [h1]⟩
    unfold deleteMovie
    rw [if_pos hc]
  · rintro ⟨r, hr, h1⟩
    have hc : db.roles.any (fun r => r.person == pid) = true :=
      List.any_eq_true.mpr ⟨r, hr, by simp [h1]⟩
    unfold deletePerson
    rw [if_pos hc]
  · intro db' hok
    unfold deleteMovie at hok
    by_cases hc : db.roles.any (fun r => r.movie == mid) = true
    · rw [if_pos hc] at hok
      exact absurd hok (by simp)
    · rw [if_neg hc] at hok
      rw [← Except.ok.inj hok]
  · intro db' hok
    unfold deletePerson at hok
    by_cases hc : db.roles.any (fun r => r.person == pid) = true
    · rw [if_pos hc] at hok
      exact absurd hok (by simp)
    · rw [if_neg hc] at hok
      rw [← Except.ok.inj hok]

/-- Witness for C6: the role row of exRoleDB blocks deleting both movie 1 and
person 1. -/
theorem role_delete_protection_witness :
    deleteMovie exRoleDB 1 = Except.error fkErr
    ∧ deletePerson exRoleDB 1 = Except.error fkErr :=
  ⟨(role_delete_protection exRoleDB 1 1).1 ⟨⟨1, 1, 1, "Hero"⟩, by decide, rfl⟩,
   (role_delete_protection exRoleDB 1 1).2.1 ⟨⟨1, 1, 1, "Hero"⟩, by decide, rfl⟩⟩

/-- C8: when deleting a person goes through, every stored movie row survives;
a movie directed by that person keeps its identifier and every field except
the director reference, which becomes absent, and any other movie is entirely
unchanged.  The director reference is an Option field of the movie record, so
a movie holds at most one director and the reference is nullable by type. -/
theorem director_set_null_spec (db : DB) (pid : Nat) (db' : DB)
    (h : deletePerson db pid = Except.ok db') :
    db'.movies = db.movies.map
      (fun m => if m.director = some pid then { m with director := none } else m)
    ∧ (∀ m ∈ db.movies, ∃ m' ∈ db'.movies,
        m'.id = m.id ∧ m'.title = m.title ∧ m'.plot = m.plot ∧ m'.year = m.year
        ∧ m'.rating = m.rating ∧ m'.runtime = m.runtime
        ∧ m'.website = m.website
        ∧ m'.director = (if m.director = some pid then none else m.director)) := by
  unfold deletePerson at h
  by_cases hc : db.roles.any (fun r => r.person == pid) = true
  · rw [if_pos hc] at h
    exact absurd h (by simp)
  · rw [if_neg hc] at h
    have h' := Except.ok.inj h
    constructor
    · rw [← h']
    · intro m hm
      refine ⟨if m.director = some pid then { m with director := none } else m,
        ?_, ?_⟩
      · rw [← h']
        exact List.mem_map_of_mem _ hm
      · by_cases hd : m.director = some pid <;> simp [hd]

/-- Witness for C8: deleting person 5 from exDirDB keeps the movie row and
clears only its director reference. -/
theorem director_set_null_spec_witness :
    exDirDB'.movies = exDirDB.movies.map
      (fun m => if m.director = some 5 then { m with director := none } else m) :=
  (director_set_null_spec exDirDB 5 exDirDB' rfl).1

/-- C10: the stored path reads nothing from the caller-supplied original
filename: two calls on the same instance drawing the same token produce the
identical path whatever their filename arguments are. -/
theorem upload_path_filename_independent (i : MovieImageInstance)
    (f1 f2 t : List Char) :
    movie_directory_path_with_uuid i f1 t = movie_directory_path_with_uuid i f2 t :=
  rfl

end MoviesDb
